import Mathlib

/-!
Verification of the phase segmentation and aggregation pipeline of
src/api/app.py (a Flask app that buckets a listener saved-track history
into calendar-season phases and computes per-phase statistics).

Every definition below is a shallow embedding of a function or code block
of src/api/app.py; the comment above each names the Python symbol and the
line range it embeds. External services (the streaming API, the text
generation API, the ISO timestamp parser of the standard library) are
modelled by explicit parameters or by sum types describing the outcome
the Python code can observe. Exceptions are modelled with Except: a
Python raise that escapes the embedded block becomes an .error value.
-/

namespace Phaseify

/-! ## Phase Segmenter: season keys (src/api/app.py, _get_season_key, lines 63-69) -/

/-- Season component of a phase key, as produced by _get_season_key. -/
inductive Season where
  | winter : Season
  | spring : Season
  | summer : Season
  | autumn : Season
deriving DecidableEq, Repr

/-- Structured form of the f-string key "Season year" built by _get_season_key. -/
structure PhaseKey where
  season : Season
  year : Int
deriving DecidableEq, Repr

/-- Rendering of a season name, as interpolated into the f-string keys. -/
def seasonName : Season → String
  | Season.winter => "Winter"
  | Season.spring => "Spring"
  | Season.summer => "Summer"
  | Season.autumn => "Autumn"

/-- String form of a phase key, matching the f-string in _get_season_key. -/
def renderKey (k : PhaseKey) : String :=
  seasonName k.season ++ " " ++ toString k.year

/-- Embeds _get_season_key (lines 63-69): maps the month and year of an
acquisition timestamp to a phase key; months 1-2 give Winter of the
previous year, 12 gives Winter of the same year. The Python function
falls through (returns None) for a month outside 1..12, which a datetime
never supplies. -/
def get_season_key (month : Nat) (year : Int) : Option PhaseKey :=
  if month = 1 ∨ month = 2 then some ⟨Season.winter, year - 1⟩
  else if month = 3 ∨ month = 4 ∨ month = 5 then some ⟨Season.spring, year⟩
  else if month = 6 ∨ month = 7 ∨ month = 8 then some ⟨Season.summer, year⟩
  else if month = 9 ∨ month = 10 ∨ month = 11 then some ⟨Season.autumn, year⟩
  else if month = 12 then some ⟨Season.winter, year⟩
  else none

/-! ## Segmentation loop (src/api/app.py, analyze, lines 152-156)

The loop reads each stored track info, parses its added_at string with
datetime.fromisoformat (after stripping a trailing Z), computes the
season key and appends the info to the keyed bucket. The outcome of the
parse is modelled by a sum type: a missing added_at makes the attribute
access .replace raise AttributeError, an unparseable string makes
fromisoformat raise ValueError, and a well-formed ISO string yields a
datetime whose month is in 1..12. Either raise escapes the loop and is
only caught by the top-level handler of analyze (lines 205-207), which
abandons the whole run. -/

/-- Outcome of datetime.fromisoformat on the added_at field of a record:
the field is absent (None), present but not ISO-formatted, or parses to
a timestamp with the given month (1..12) and year. -/
inductive ParsedStamp where
  | missing : ParsedStamp
  | unparseable : ParsedStamp
  | valid : Nat → Int → ParsedStamp
deriving DecidableEq, Repr

/-- A track record as seen by the segmentation loop: its added_at parse
outcome plus an opaque payload standing for the rest of the info dict. -/
structure SegTrack where
  addedAt : ParsedStamp
  payload : String
deriving DecidableEq, Repr

/-- Embeds the defaultdict(list) append of line 156: phases[key].append(info),
with dict insertion order preserved. -/
def appendPhase (phases : List (PhaseKey × List SegTrack)) (k : PhaseKey) (t : SegTrack) :
    List (PhaseKey × List SegTrack) :=
  match phases with
  | [] => [(k, [t])]
  | (k0, ts) :: rest =>
      if k0 = k then (k0, ts ++ [t]) :: rest else (k0, ts) :: appendPhase rest k t

/-- Loop body of lines 152-156 over the remaining records, carrying the
phases dict; a parse failure raises out of the loop (.error). -/
def segmentTracksGo : List SegTrack → List (PhaseKey × List SegTrack) →
    Except String (List (PhaseKey × List SegTrack))
  | [], phases => Except.ok phases
  | t :: rest, phases =>
      match t.addedAt with
      | ParsedStamp.missing => Except.error "AttributeError"
      | ParsedStamp.unparseable => Except.error "ValueError"
      | ParsedStamp.valid m y =>
          match get_season_key m y with
          | some k => segmentTracksGo rest (appendPhase phases k t)
          | none => segmentTracksGo rest phases

/-- Embeds the whole segmentation loop of lines 152-156, starting from the
empty defaultdict. -/
def segment_tracks (ts : List SegTrack) : Except String (List (PhaseKey × List SegTrack)) :=
  segmentTracksGo ts []

/-! ## Narrative Enricher (src/api/app.py, _get_ai_phase_details, lines 71-95) -/

/-- The avg_release_year statistic handed to _get_ai_phase_details: either
the int produced by round, or the string sentinel N/A set when the bucket
has no valid release years (line 189). -/
inductive AvgYear where
  | na : AvgYear
  | year : Int → AvgYear
deriving DecidableEq, Repr

/-- The phase_chars dict built at line 192 and passed to _get_ai_phase_details. -/
structure PhaseChars where
  period : String
  top_genres : List String
  avg_release_year : AvgYear
  avg_popularity : Int
deriving DecidableEq, Repr

/-- A parsed (phase_name, phase_summary) result of the generation call. -/
structure AiDetails where
  phase_name : String
  phase_summary : String
deriving DecidableEq, Repr

/-- The deterministic fallback dict built at line 73. -/
def fallback_details (period : String) : AiDetails :=
  ⟨"Your " ++ period ++ " Era", "A distinct period in your listening journey."⟩

/-- Embeds _get_ai_phase_details (lines 71-95). The environment variable
GEMINI_API_KEY is the first parameter (none when unset; Python treats an
empty string as falsy too). The external POST call and its parsing,
wrapped in try/except at lines 89-95, are modelled by callResult: some d
when the call succeeds and parses to d, none when the call raises or its
output is unusable, in which case the except branch returns the fallback.
Building the prompt at lines 77-85 happens before the try block; when
avg_release_year is the N/A string sentinel, the comparison with the int
2010 at line 83 raises TypeError, which escapes the function (.error). -/
def get_ai_phase_details (geminiApiKey : Option String) (chars : PhaseChars)
    (_topArtists : List String) (callResult : Option AiDetails) : Except String AiDetails :=
  match geminiApiKey with
  | none => Except.ok (fallback_details chars.period)
  | some key =>
      if key = "" then Except.ok (fallback_details chars.period)
      else
        match chars.avg_release_year with
        | AvgYear.na => Except.error "TypeError"
        | AvgYear.year y =>
            let _eraVibe := if 2010 < y then "Modern" else "Throwback"
            match callResult with
            | some d => Except.ok d
            | none => Except.ok (fallback_details chars.period)

/-! ## Phase Aggregator: representative artwork (src/api/app.py, analyze, lines 177-185) -/

/-- The track fields read by the album statistics loop at lines 178-181:
album_id (None when the album has no id) and cover_url. -/
structure ArtTrack where
  albumId : Option String
  coverUrl : String
deriving DecidableEq, Repr

/-- One entry of album_stats turned candidate at line 183: the album id,
its track count and the cover url remembered for it. -/
structure AlbumCand where
  id : String
  count : Nat
  cover : String
deriving DecidableEq, Repr

/-- The fixed placeholder cover url used at lines 147, 184 and 185. -/
def placeholderUrl : String :=
  "https://placehold.co/128x128/121212/FFFFFF?text=?"

/-- Embeds one step of the album_stats loop (lines 178-181): for a track
with a truthy album_id, increment the count of that album and overwrite
its remembered cover with the track cover_url; dict insertion order is
preserved. -/
def bumpAlbum (stats : List AlbumCand) (aid : String) (cover : String) : List AlbumCand :=
  match stats with
  | [] => [⟨aid, 1, cover⟩]
  | c :: rest =>
      if c.id = aid then ⟨c.id, c.count + 1, cover⟩ :: rest
      else c :: bumpAlbum rest aid cover

/-- Embeds the album_stats loop of lines 177-181 over the bucket tracks. -/
def buildAlbumStats (tracks : List ArtTrack) : List AlbumCand :=
  tracks.foldl
    (fun stats t =>
      match t.albumId with
      | some aid => if aid = "" then stats else bumpAlbum stats aid t.coverUrl
      | none => stats)
    []

/-- Comparison used by sorted(..., key=lambda x: x count, reverse=True) at
line 183: descending track count. -/
def candGe (a b : AlbumCand) : Prop := b.count ≤ a.count

instance : DecidableRel candGe := fun a b => Nat.decLe b.count a.count

instance : IsTotal AlbumCand candGe := ⟨fun a b => Nat.le_total b.count a.count⟩

instance : IsTrans AlbumCand candGe := ⟨fun _ _ _ h1 h2 => Nat.le_trans h2 h1⟩

/-- Embeds line 183: the candidate list sorted by descending count. The
Python sorted builtin is a stable sort, modelled by stable insertion
sort. -/
def rankAlbums (tracks : List ArtTrack) : List AlbumCand :=
  List.insertionSort candGe (buildAlbumStats tracks)

/-- Embeds line 184: the cover of the first ranked candidate whose id is
not in used_album_ids, or the placeholder when every candidate is used. -/
def selectCoverUrl (cands : List AlbumCand) (used : List String) : String :=
  match cands.find? (fun c => !(used.contains c.id)) with
  | some c => c.cover
  | none => placeholderUrl

/-- Embeds line 185: when the selected cover differs from the placeholder,
add to used_album_ids the id of the first ranked candidate whose cover
string equals the selected cover (set add: no duplicate entries). The
Python next(...) default None adds None to the set when no candidate
matches, which never collides with a string id; modelled as a no-op. -/
def updateUsedIds (cands : List AlbumCand) (used : List String) (cover : String) :
    List String :=
  if cover = placeholderUrl then used
  else
    match cands.find? (fun c => c.cover == cover) with
    | some c => if used.contains c.id then used else used ++ [c.id]
    | none => used

/-- Embeds lines 177-185 as one step: from the bucket tracks and the
running used_album_ids, produce the selected cover_url and the updated
used_album_ids. -/
def processPhaseArtwork (tracks : List ArtTrack) (used : List String) :
    String × List String :=
  let cands := rankAlbums tracks
  let cover := selectCoverUrl cands used
  (cover, updateUsedIds cands used cover)

/-! ## Phase Aggregator: average release year (src/api/app.py, analyze, lines 188-189) -/

/-- Python round on the exact quotient num/den: round half to even, as
applied at line 189 to the mean of the valid years (the float quotient is
exact at every tie that can arise there, so the bankers rounding of the
exact rational is the value the code computes). -/
def pyRound (num den : Nat) : Nat :=
  let q := num / den
  let r := num % den
  if 2 * r < den then q
  else if den < 2 * r then q + 1
  else if q % 2 = 0 then q else q + 1

/-- Embeds lines 188-189: valid_years keeps the strictly positive release
years of the bucket tracks; the average is their rounded mean, or the
N/A sentinel (none) when no valid year exists. -/
def averageReleaseYear (years : List Nat) : Option Nat :=
  let valid := years.filter (fun y => 0 < y)
  if valid.isEmpty then none
  else some (pyRound valid.sum valid.length)

/-! ## Batch Attribute Resolver (src/api/app.py, _get_artist_genres, lines 52-61)

The upstream batch endpoint is modelled by a function from artist id to
the entity the service returns for it: none for a null or missing entity,
some go for an entity whose genres field is go (itself none when the
entity carries no genres key, in which case artist.get defaults to []).
One chunk request returns the entities of its requested ids in order,
which is exactly what the loop at lines 59-60 consumes. -/

/-- Upstream answer for one artist id. -/
def Upstream : Type := String → Option (Option (List String))

/-- A Python dict as an insertion-ordered association list: assignment
replaces the value of an existing key in place and appends a fresh key. -/
def dictInsert {β : Type} (m : List (String × β)) (k : String) (v : β) :
    List (String × β) :=
  match m with
  | [] => [(k, v)]
  | (k0, v0) :: rest =>
      if k0 = k then (k0, v) :: rest else (k0, v0) :: dictInsert rest k v

/-- Lookup in a dict. -/
def dictLookup {β : Type} (m : List (String × β)) (k : String) : Option β :=
  match m with
  | [] => none
  | (k0, v0) :: rest => if k0 = k then some v0 else dictLookup rest k

/-- Embeds the chunking loop of lines 55-56: for i in range(0, N, 50) the
slice artist_ids[i:i+50]. The range steps through ceil(N/50) indices
0, 50, 100, ...; slicing at offset i is drop then take. -/
def chunked (l : List String) : List (List String) :=
  (List.range ((l.length + 49) / 50)).map (fun j => (l.drop (50 * j)).take 50)

/-- Embeds the inner loop of lines 59-60 over one chunk response: null
entities are skipped (if artist:), other entities set
genres_map[artist id] = artist.get(genres, []). -/
def processChunk (upstream : Upstream) (chunk : List String)
    (m : List (String × List String)) : List (String × List String) :=
  chunk.foldl
    (fun acc id =>
      match upstream id with
      | none => acc
      | some go => dictInsert acc id (go.getD []))
    m

/-- The outer chunk loop of lines 55-60: process each chunk in turn,
threading the genres_map. -/
def foldChunks (upstream : Upstream) (cs : List (List String))
    (m : List (String × List String)) : List (String × List String) :=
  cs.foldl (fun m2 c => processChunk upstream c m2) m

/-- Embeds _get_artist_genres (lines 52-61). Returns the genres_map
together with the number of upstream requests issued (one per chunk);
an empty id list returns the empty map with no request. -/
def get_artist_genres (upstream : Upstream) (artistIds : List String) :
    List (String × List String) × Nat :=
  if artistIds = [] then ([], 0)
  else (foldChunks upstream (chunked artistIds) [], (chunked artistIds).length)

/-! ## Paginated Collection Fetcher (src/api/app.py, _get_all_pages, lines 39-50)

One page response of the paged collection endpoint, as consumed through
_get_api_data (lines 33-37): raise_for_status turns any non-success
status into an exception, so a response is either an error or a parsed
body with an items list and a next continuation (null or a url string).
The network interaction is modelled by the list of responses the server
would give to the successive requests; the url rewriting
next_url.replace(API_BASE_URL, ...) only changes the string content of
the continuation, never its truthiness for the urls the API serves, and
is modelled as the identity. -/

/-- A parsed page body: items plus the next continuation reference. -/
structure Page (α : Type) where
  items : List α
  next : Option String
deriving DecidableEq, Repr

/-- Embeds line 43: the per-request page size min(50, limit - len(items)). -/
def pageLimit (limit count : Nat) : Nat := min 50 (limit - count)

/-- Embeds the while loop of lines 42-49, consuming the successive server
responses. The loop runs while the endpoint is truthy and fewer than
limit items are collected; a response error (raise_for_status) escapes
immediately; the continuation is dropped when it is falsy or the limit
is reached after extending. -/
def getAllPagesGo {α : Type} (limit : Nat) :
    List (Except String (Page α)) → List α → Option String → Except String (List α)
  | _, items, none => Except.ok items
  | responses, items, some _ =>
      if limit ≤ items.length then Except.ok items
      else
        match responses with
        | [] => Except.ok items
        | r :: rest =>
            match r with
            | Except.error e => Except.error e
            | Except.ok page =>
                let items2 := items ++ page.items
                let endpoint2 :=
                  match page.next with
                  | some n =>
                      if n = "" then none
                      else if items2.length < limit then some n else none
                  | none => none
                getAllPagesGo limit rest items2 endpoint2

/-- Embeds _get_all_pages (lines 39-50) with an explicit limit argument. -/
def get_all_pages {α : Type} (url : String) (responses : List (Except String (Page α)))
    (limit : Nat) : Except String (List α) :=
  getAllPagesGo limit responses [] (if url = "" then none else some url)

/-- The default of the limit parameter in the signature of _get_all_pages
(line 39). -/
def defaultPageCap : Nat := 1000

/-- Embeds a call of _get_all_pages that does not supply a maximum item
count, so the default of line 39 applies. -/
def get_all_pages_default {α : Type} (url : String)
    (responses : List (Except String (Page α))) : Except String (List α) :=
  get_all_pages url responses defaultPageCap

/-! ## Timeline Assembler ordering (src/api/app.py, analyze, lines 161-165 and 202) -/

/-- Embeds the list index in get_sort_key (line 163): position of the
season name in the list Winter, Spring, Summer, Autumn. -/
def seasonIndex : Season → Nat
  | Season.winter => 0
  | Season.spring => 1
  | Season.summer => 2
  | Season.autumn => 3

/-- Embeds get_sort_key (lines 161-163): a phase key string splits into its
season and year, sorted by the tuple (year, season index). The structured
PhaseKey carries the same two components as the rendered string. -/
def get_sort_key (k : PhaseKey) : Int × Nat := (k.year, seasonIndex k.season)

/-- Ascending comparison on sort keys: lexicographic order on the tuple
(year, season index), as Python compares key tuples. -/
def keyLe (a b : PhaseKey) : Prop :=
  (get_sort_key a).1 < (get_sort_key b).1 ∨
    ((get_sort_key a).1 = (get_sort_key b).1 ∧ (get_sort_key a).2 ≤ (get_sort_key b).2)

/-- Strict version of the sort-key order. -/
def keyLt (a b : PhaseKey) : Prop :=
  (get_sort_key a).1 < (get_sort_key b).1 ∨
    ((get_sort_key a).1 = (get_sort_key b).1 ∧ (get_sort_key a).2 < (get_sort_key b).2)

instance : DecidableRel keyLe := fun a b => by unfold keyLe; exact inferInstance

instance : DecidableRel keyLt := fun a b => by unfold keyLt; exact inferInstance

instance : IsTotal PhaseKey keyLe :=
  ⟨fun a b => by unfold keyLe; omega⟩

instance : IsTrans PhaseKey keyLe :=
  ⟨fun a b c h1 h2 => by unfold keyLe at h1 h2 ⊢; omega⟩

/-- Embeds line 165: the phase keys sorted ascending by get_sort_key
(sorted is a stable sort, modelled by stable insertion sort). -/
def sortPhaseKeys (keys : List PhaseKey) : List PhaseKey :=
  List.insertionSort keyLe keys

/-- Embeds line 202: final_phases_output.reverse() turns the ascending
processing order into the emitted order. -/
def outputPhaseOrder (keys : List PhaseKey) : List PhaseKey :=
  (sortPhaseKeys keys).reverse

/-! ## Track extraction (src/api/app.py, analyze, lines 140-148)

The raw saved-track items as delivered by the collection fetch, with
every field the extraction loop reads. Option models a missing key
(dict.get default applies) and, for strings, Python falsiness also
treats the empty string as false. -/

/-- A nested artist object of a raw track. -/
structure RawArtist where
  id : Option String
  name : Option String
deriving DecidableEq, Repr

/-- A nested album object of a raw track; images holds the cover urls. -/
structure RawAlbum where
  id : Option String
  release_date : Option String
  images : List String
deriving DecidableEq, Repr

/-- A raw track object. -/
structure RawTrack where
  id : Option String
  name : Option String
  artists : Option (List RawArtist)
  album : Option RawAlbum
  popularity : Option Int
deriving DecidableEq, Repr

/-- One element of the saved-tracks collection. -/
structure RawItem where
  track : Option RawTrack
  added_at : Option String
deriving DecidableEq, Repr

/-- Python truthiness of an optional string: None and the empty string are
falsy. -/
def truthyStr : Option String → Bool
  | none => false
  | some s => ¬ s = ""

/-- Python int() on the strings arising as release-date year fields:
digits (with an optional leading minus) parse, anything else raises
ValueError. -/
def pyInt (s : String) : Except String Int :=
  match s.toInt? with
  | some n => Except.ok n
  | none => Except.error "ValueError"

/-- Embeds int(album.get(release_date, 0-string).split(dash)[0]) of
line 147. -/
def releaseYearOf (rd : String) : Except String Int :=
  pyInt ((rd.splitOn "-").headD "")

/-- The per-track info dict built at line 147. -/
structure TrackInfo where
  name : String
  artist_id : Option String
  album_id : Option String
  artist_name : String
  popularity : Int
  release_year : Int
  added_at : Option String
  cover_url : String
deriving DecidableEq, Repr

/-- Python set add on the artist-id set (line 148), modelled as an
insertion-ordered duplicate-free list. -/
def addToSet (s : List String) (x : String) : List String :=
  if s.contains x then s else s ++ [x]

/-- One iteration of the loop at lines 142-148 over a single raw item,
transforming the pair (all_tracks_info, all_artist_ids). Items without a
truthy track id are skipped (continue); indexing [0] into an explicitly
empty artists list raises IndexError; an unparseable release-date year
raises ValueError; either raise escapes the loop. -/
def extractStep (it : RawItem) (infos : List (String × TrackInfo)) (ids : List String) :
    Except String (List (String × TrackInfo) × List String) :=
  match it.track with
  | none => Except.ok (infos, ids)
  | some tr =>
      if truthyStr tr.id then
        match tr.artists.getD [⟨none, none⟩] with
        | [] => Except.error "IndexError"
        | artist :: _ =>
            let album := tr.album.getD ⟨none, none, []⟩
            match releaseYearOf (album.release_date.getD "0") with
            | Except.error e => Except.error e
            | Except.ok ry =>
                let info : TrackInfo :=
                  { name := tr.name.getD "N/A"
                    artist_id := artist.id
                    album_id := album.id
                    artist_name := artist.name.getD "N/A"
                    popularity := tr.popularity.getD 0
                    release_year := ry
                    added_at := it.added_at
                    cover_url := album.images.headD placeholderUrl }
                let infos2 := dictInsert infos (tr.id.getD "") info
                let ids2 := if truthyStr artist.id then addToSet ids (artist.id.getD "") else ids
                Except.ok (infos2, ids2)
      else Except.ok (infos, ids)

/-- The loop of lines 142-148 over the remaining raw items, carrying
all_tracks_info (a dict keyed by track id) and all_artist_ids. -/
def extractTracksGo : List RawItem → List (String × TrackInfo) → List String →
    Except String (List (String × TrackInfo) × List String)
  | [], infos, ids => Except.ok (infos, ids)
  | it :: rest, infos, ids =>
      match extractStep it infos ids with
      | Except.error e => Except.error e
      | Except.ok (infos2, ids2) => extractTracksGo rest infos2 ids2

/-- Embeds the extraction loop of lines 140-148: from the raw saved
tracks, the all_tracks_info dict and the all_artist_ids set that seed
the rest of the analysis. -/
def extract_saved_tracks (items : List RawItem) :
    Except String (List (String × TrackInfo) × List String) :=
  extractTracksGo items [] []

/-- Same raw item with every credited artist after the first removed. -/
def keepFirstArtist (it : RawItem) : RawItem :=
  { it with track := it.track.map (fun tr => { tr with artists := tr.artists.map (fun l => l.take 1) }) }

/-- The items carried by a successful page response (used to state what
the fetch loop concatenates). -/
def okItems {α : Type} (r : Except String (Page α)) : List α :=
  match r with
  | Except.ok p => p.items
  | Except.error _ => []

/-- Responses of a server whose saved-track collection holds 1050 items,
served as 21 full pages of 50 with a continuation after each. -/
def bigServer : List (Except String (Page Nat)) :=
  List.replicate 21 (Except.ok ⟨List.replicate 50 0, some "next"⟩)

/-! ## Theorems -/

/-- C1: for every timestamp with a valid month (1..12) and year, the
segmenter yields exactly one phase key; months 1-2 map to Winter of the
previous year, 3-5 to Spring, 6-8 to Summer, 9-11 to Autumn, 12 to Winter
of the same year; hence December of year y and January and February of
year y+1 all map to the key Winter y, rendered as the string built from
Winter and the year. -/
theorem season_key_total_and_winter_rule (m : Nat) (y : Int) :
    (1 ≤ m → m ≤ 12 → (get_season_key m y).isSome) ∧
    ((m = 1 ∨ m = 2) → get_season_key m y = some ⟨Season.winter, y - 1⟩) ∧
    ((m = 3 ∨ m = 4 ∨ m = 5) → get_season_key m y = some ⟨Season.spring, y⟩) ∧
    ((m = 6 ∨ m = 7 ∨ m = 8) → get_season_key m y = some ⟨Season.summer, y⟩) ∧
    ((m = 9 ∨ m = 10 ∨ m = 11) → get_season_key m y = some ⟨Season.autumn, y⟩) ∧
    (m = 12 → get_season_key m y = some ⟨Season.winter, y⟩) ∧
    (get_season_key 12 y = some ⟨Season.winter, y⟩ ∧
     get_season_key 1 (y + 1) = some ⟨Season.winter, y⟩ ∧
     get_season_key 2 (y + 1) = some ⟨Season.winter, y⟩) ∧
    renderKey ⟨Season.winter, y⟩ = "Winter " ++ toString y := by
  refine ⟨?_, ?_, ?_, ?_, ?_, ?_, ⟨?_, ?_, ?_⟩, rfl⟩
  · intro h1 h2
    interval_cases m <;> simp [get_season_key]
  · rintro (rfl | rfl) <;> simp [get_season_key]
  · rintro (rfl | rfl | rfl) <;> simp [get_season_key]
  · rintro (rfl | rfl | rfl) <;> simp [get_season_key]
  · rintro (rfl | rfl | rfl) <;> simp [get_season_key]
  · rintro rfl; simp [get_season_key]
  · simp [get_season_key]
  · simp [get_season_key]
  · simp [get_season_key]

/-- Witness for C1 at the concrete timestamp February 2023. -/
theorem season_key_total_and_winter_rule_witness :
    (get_season_key 2 2023).isSome ∧ get_season_key 2 2023 = some ⟨Season.winter, 2023 - 1⟩ :=
  ⟨(season_key_total_and_winter_rule 2 2023).1 (by decide) (by decide),
   (season_key_total_and_winter_rule 2 2023).2.1 (Or.inr rfl)⟩

/-- Helper for C2: a record with a missing or unparseable timestamp makes
the segmentation loop raise, from any intermediate phases dict. -/
theorem segmentTracksGo_error_of_bad (ts : List SegTrack) :
    ∀ phases t, t ∈ ts →
      (t.addedAt = ParsedStamp.missing ∨ t.addedAt = ParsedStamp.unparseable) →
      ∃ e, segmentTracksGo ts phases = Except.error e := by
  induction ts with
  | nil => intro _ t hmem _; exact absurd hmem (List.not_mem_nil t)
  | cons a rest ih =>
      intro phases t hmem hbad
      rcases List.mem_cons.mp hmem with heq | hmem2
      · subst heq
        rcases hbad with h | h
        · exact ⟨"AttributeError", by simp only [segmentTracksGo, h]⟩
        · exact ⟨"ValueError", by simp only [segmentTracksGo, h]⟩
      · cases ha : a.addedAt with
        | missing => exact ⟨"AttributeError", by simp only [segmentTracksGo, ha]⟩
        | unparseable => exact ⟨"ValueError", by simp only [segmentTracksGo, ha]⟩
        | valid m y =>
            simp only [segmentTracksGo, ha]
            cases get_season_key m y with
            | some k => exact ih _ t hmem2 hbad
            | none => exact ih _ t hmem2 hbad

/-- Helper for C2: when every timestamp parses, the loop completes. -/
theorem segmentTracksGo_ok_of_valid (ts : List SegTrack) :
    ∀ phases, (∀ t ∈ ts, ∃ m y, t.addedAt = ParsedStamp.valid m y) →
      ∃ ph, segmentTracksGo ts phases = Except.ok ph := by
  induction ts with
  | nil => intro phases _; exact ⟨phases, rfl⟩
  | cons a rest ih =>
      intro phases hall
      obtain ⟨m, y, hm⟩ := hall a (List.mem_cons_self a rest)
      simp only [segmentTracksGo, hm]
      cases get_season_key m y with
      | some k => exact ih _ (fun t ht => hall t (List.mem_cons_of_mem a ht))
      | none => exact ih _ (fun t ht => hall t (List.mem_cons_of_mem a ht))

/-- C2 (amended): a fetched record whose acquisition timestamp is missing
or unparseable makes the segmentation loop raise (AttributeError or
ValueError), aborting the whole analysis run through the top-level
handler, rather than being dropped silently; when every timestamp parses
the segmentation completes normally. -/
theorem segmentation_bad_timestamp_aborts (ts : List SegTrack) :
    (∀ t ∈ ts, (t.addedAt = ParsedStamp.missing ∨ t.addedAt = ParsedStamp.unparseable) →
      ∃ e, segment_tracks ts = Except.error e) ∧
    ((∀ t ∈ ts, ∃ m y, t.addedAt = ParsedStamp.valid m y) →
      ∃ ph, segment_tracks ts = Except.ok ph) :=
  ⟨fun t hmem hbad => segmentTracksGo_error_of_bad ts [] t hmem hbad,
   fun hall => segmentTracksGo_ok_of_valid ts [] hall⟩

/-- Witness for C2 at concrete inputs: one list with a missing timestamp
aborts, one all-valid list completes. -/
theorem segmentation_bad_timestamp_aborts_witness :
    (∃ e, segment_tracks [⟨ParsedStamp.valid 7 2023, "a"⟩, ⟨ParsedStamp.missing, "b"⟩] =
      Except.error e) ∧
    (∃ ph, segment_tracks [⟨ParsedStamp.valid 7 2023, "a"⟩] = Except.ok ph) :=
  ⟨(segmentation_bad_timestamp_aborts _).1 ⟨ParsedStamp.missing, "b"⟩ (by decide) (Or.inl rfl),
   (segmentation_bad_timestamp_aborts _).2
     (by intro t ht; simp only [List.mem_singleton] at ht; subst ht; exact ⟨7, 2023, rfl⟩)⟩

/-- C2 counterexample to the claim as stated: a single record with a
missing (resp. unparseable) timestamp does not yield an empty bucket
list; the segmentation raises instead. -/
theorem segmentation_no_silent_drop :
    segment_tracks [⟨ParsedStamp.missing, "t"⟩] = Except.error "AttributeError" ∧
    segment_tracks [⟨ParsedStamp.unparseable, "t"⟩] = Except.error "ValueError" :=
  ⟨rfl, rfl⟩

/-- C3: the failing input of the code bug evaluated in the embedding.
With the generation key configured and the average release year equal to
the N/A sentinel, _get_ai_phase_details raises TypeError at the
prompt-building comparison of line 83 (which precedes the try block),
whatever the external generation call would have returned; the
deterministic fallback is never reached and the raise aborts the whole
analysis run through the top-level handler, contradicting the claim that
the enricher never raises for any average year. -/
theorem ai_details_na_sentinel_raises (arts : List String) (r : Option AiDetails) :
    get_ai_phase_details (some "k") ⟨"Winter 2022", [], AvgYear.na, 0⟩ arts r =
      Except.error "TypeError" := rfl

/-- C4 counterexample to the claim as stated: with two albums sharing one
cover string (A with two tracks, already used; B with one track, unused)
the selection succeeds and chooses album B (the highest-ranked unused
candidate) and returns its cover, but the identifier added back is
resolved by cover-string lookup and hits the already-used A, so the
chosen album B is never recorded in the used set. -/
theorem artwork_add_mismatch :
    (rankAlbums [⟨some "A", "X"⟩, ⟨some "A", "X"⟩, ⟨some "B", "X"⟩]).find?
        (fun c => !((["A"] : List String).contains c.id)) = some ⟨"B", 1, "X"⟩ ∧
    processPhaseArtwork [⟨some "A", "X"⟩, ⟨some "A", "X"⟩, ⟨some "B", "X"⟩] ["A"] =
      ("X", ["A"]) ∧
    ("B" : String) ∉ (processPhaseArtwork [⟨some "A", "X"⟩, ⟨some "A", "X"⟩, ⟨some "B", "X"⟩] ["A"]).2 ∧
    ("X" : String) ≠ placeholderUrl := by
  decide

/-- C4 (amended): the aggregator ranks the bucket albums by descending
track count (a stable sort of the album stats), selects the cover of the
highest-ranked album not yet in the used set (placeholder if none
exists), and, when the selected cover differs from the placeholder url,
adds the identifier of the highest-ranked album whose cover string
equals the selected cover; this is exactly the chosen album whenever it
is the first-ranked candidate bearing its cover string. When the chosen
album carries the placeholder string as its cover, nothing is added. -/
theorem artwork_selection_step (tracks : List ArtTrack) (used : List String) :
    ((rankAlbums tracks).Sorted candGe ∧ (rankAlbums tracks).Perm (buildAlbumStats tracks)) ∧
    ((rankAlbums tracks).find? (fun c => !(used.contains c.id)) = none →
      processPhaseArtwork tracks used = (placeholderUrl, used)) ∧
    (∀ c, (rankAlbums tracks).find? (fun c2 => !(used.contains c2.id)) = some c →
      (processPhaseArtwork tracks used).1 = c.cover ∧
      (¬ c.cover = placeholderUrl →
        (rankAlbums tracks).find? (fun d => d.cover == c.cover) = some c →
        (processPhaseArtwork tracks used).2 = used ++ [c.id]) ∧
      (c.cover = placeholderUrl → (processPhaseArtwork tracks used).2 = used)) := by
  refine ⟨⟨List.sorted_insertionSort candGe _, List.perm_insertionSort candGe _⟩, ?_, ?_⟩
  · intro h
    simp only [processPhaseArtwork, selectCoverUrl, updateUsedIds, h]
    simp
  · intro c hc
    have hsel : selectCoverUrl (rankAlbums tracks) used = c.cover := by
      simp only [selectCoverUrl, hc]
    have hid : used.contains c.id = false := by
      have hp := List.find?_some hc
      simpa using hp
    refine ⟨by simp only [processPhaseArtwork, hsel], ?_, ?_⟩
    · intro hne hcov
      simp only [processPhaseArtwork, hsel, updateUsedIds, if_neg hne, hcov, hid]
      simp
    · intro hph
      simp only [processPhaseArtwork, hsel, updateUsedIds]
      rw [if_pos hph]

/-- Witness for C4 at concrete inputs: a fresh album gets its cover
selected and its own id recorded; an empty candidate list falls back to
the placeholder without touching the used set; a chosen album whose
cover is the placeholder string leaves the used set unchanged. -/
theorem artwork_selection_step_witness :
    ((processPhaseArtwork [⟨some "A", "X"⟩] []).1 = "X" ∧
      (processPhaseArtwork [⟨some "A", "X"⟩] []).2 = [] ++ ["A"]) ∧
    processPhaseArtwork ([] : List ArtTrack) ["Z"] = (placeholderUrl, ["Z"]) ∧
    (processPhaseArtwork [⟨some "A", placeholderUrl⟩] []).2 = [] := by
  have h1 := (artwork_selection_step [⟨some "A", "X"⟩] []).2.2 ⟨"A", 1, "X"⟩ (by decide)
  have h2 := (artwork_selection_step ([] : List ArtTrack) ["Z"]).2.1 (by decide)
  have h3 := (artwork_selection_step [⟨some "A", placeholderUrl⟩] []).2.2
    ⟨"A", 1, placeholderUrl⟩ (by decide)
  exact ⟨⟨h1.1, h1.2.1 (by decide) (by decide)⟩, h2, h3.2.2 rfl⟩

/-- Helper for C5: Python round of the exact mean lands within half a
unit of it, that is, twice the distance between the rounded value scaled
by the denominator and the numerator is at most the denominator. -/
theorem pyRound_nearest (num den : Nat) (hd : 0 < den) :
    ((pyRound num den : Int) * den - num).natAbs * 2 ≤ den := by
  have hnum : (num : Int) = (den : Int) * ((num / den : Nat) : Int) + ((num % den : Nat) : Int) := by
    exact_mod_cast (Nat.div_add_mod num den).symm
  have hmod : num % den < den := Nat.mod_lt num hd
  have heq1 : ((num / den : Nat) : Int) * den - num = -((num % den : Nat) : Int) := by
    rw [hnum]; ring
  have heq2 : ((num / den + 1 : Nat) : Int) * den - num =
      (den : Int) - ((num % den : Nat) : Int) := by
    have h1 : ((num / den + 1 : Nat) : Int) = ((num / den : Nat) : Int) + 1 := by
      exact_mod_cast rfl
    rw [h1, hnum]; ring
  simp only [pyRound]
  split
  · rw [heq1]; omega
  · split
    · rw [heq2]; omega
    · split
      · rw [heq1]; omega
      · rw [heq2]; omega

/-- C5: the per-bucket average release year is computed over the strictly
positive years only, is the N/A sentinel (not zero) when no such year
exists, and otherwise is an integer within half a unit of the exact mean
of the valid years; the documented example [0, 2015, 2020] averages to
2018. -/
theorem average_year_excludes_sentinel (years : List Nat) :
    (years.filter (fun y => 0 < y) = [] → averageReleaseYear years = none) ∧
    (years.filter (fun y => 0 < y) ≠ [] →
      ∃ k, averageReleaseYear years = some k ∧
        ((k : Int) * (years.filter (fun y => 0 < y)).length -
            ((years.filter (fun y => 0 < y)).sum : Int)).natAbs * 2 ≤
          (years.filter (fun y => 0 < y)).length) ∧
    averageReleaseYear [0, 2015, 2020] = some 2018 := by
  refine ⟨?_, ?_, by decide⟩
  · intro h
    simp only [averageReleaseYear, h]
    rfl
  · intro h
    refine ⟨pyRound (years.filter (fun y => 0 < y)).sum (years.filter (fun y => 0 < y)).length,
      ?_, ?_⟩
    · simp only [averageReleaseYear]
      rw [if_neg (by simpa [List.isEmpty_iff] using h)]
    · exact pyRound_nearest _ _ (List.length_pos.mpr h)

/-- Witness for C5 at the documented example and at an all-sentinel
bucket. -/
theorem average_year_excludes_sentinel_witness :
    (∃ k, averageReleaseYear [0, 2015, 2020] = some k ∧
      ((k : Int) * ([0, 2015, 2020].filter (fun y => 0 < y)).length -
          (([0, 2015, 2020].filter (fun y => 0 < y)).sum : Int)).natAbs * 2 ≤
        ([0, 2015, 2020].filter (fun y => 0 < y)).length) ∧
    averageReleaseYear [0, 0] = none :=
  ⟨(average_year_excludes_sentinel [0, 2015, 2020]).2.1 (by decide),
   (average_year_excludes_sentinel [0, 0]).1 (by decide)⟩

/-- Helper: one-step unfolding of the chunking. -/
theorem chunked_eq (l : List String) :
    chunked l = if l = [] then [] else l.take 50 :: chunked (l.drop 50) := by
  by_cases h : l = []
  · subst h; simp [chunked]
  · have hlen : 0 < l.length := List.length_pos.mpr h
    have hn : (l.length + 49) / 50 = ((l.drop 50).length + 49) / 50 + 1 := by
      simp only [List.length_drop]; omega
    rw [if_neg h]
    simp only [chunked, hn, List.range_succ_eq_map, List.map_cons, List.map_map]
    congr 1
    refine List.map_congr_left ?_
    intro a _
    simp only [Function.comp_apply, List.drop_drop]
    congr 2
    omega

/-- Helper: the chunks concatenate back to the id list. -/
theorem flatten_chunked (l : List String) : (chunked l).flatten = l := by
  by_cases h : l = []
  · subst h; simp [chunked]
  · rw [chunked_eq, if_neg h]
    have ih := flatten_chunked (l.drop 50)
    simp only [List.flatten_cons, ih, List.take_append_drop]
termination_by l.length
decreasing_by
  have := List.length_pos.mpr h
  simp only [List.length_drop]
  omega

/-- Helper: an id lies in some chunk exactly when it lies in the list. -/
theorem mem_chunked (l : List String) (x : String) :
    (∃ c ∈ chunked l, x ∈ c) ↔ x ∈ l := by
  conv_rhs => rw [← flatten_chunked l]
  exact List.mem_flatten.symm

/-- Helper: the number of chunks is the ceiling of the size over 50. -/
theorem chunked_length (l : List String) : (chunked l).length = (l.length + 49) / 50 := by
  simp [chunked]

/-- Helper: every chunk holds at most 50 ids. -/
theorem chunked_size (l : List String) (c : List String) (hc : c ∈ chunked l) :
    c.length ≤ 50 := by
  simp only [chunked, List.mem_map] at hc
  obtain ⟨j, _, rfl⟩ := hc
  simp [List.length_take]

/-- Helper: a dict entry after an insertion bears the inserted key or was
already present. -/
theorem mem_dictInsert {β : Type} (m : List (String × β)) (k : String) (v : β)
    (p : String × β) (hp : p ∈ dictInsert m k v) : p.1 = k ∨ p ∈ m := by
  induction m with
  | nil =>
      simp only [dictInsert, List.mem_singleton] at hp
      subst hp; left; rfl
  | cons q rest ih =>
      obtain ⟨k0, v0⟩ := q
      by_cases h : k0 = k
      · simp only [dictInsert, if_pos h] at hp
        rcases List.mem_cons.mp hp with heq | hmem
        · subst heq; left; exact h
        · right; exact List.mem_cons_of_mem _ hmem
      · simp only [dictInsert, if_neg h] at hp
        rcases List.mem_cons.mp hp with heq | hmem
        · subst heq; right; exact List.mem_cons_self _ _
        · rcases ih hmem with h1 | h2
          · left; exact h1
          · right; exact List.mem_cons_of_mem _ h2

/-- Helper: lookup after a dict insertion. -/
theorem dictLookup_dictInsert {β : Type} (m : List (String × β)) (k k2 : String) (v : β) :
    dictLookup (dictInsert m k v) k2 = if k = k2 then some v else dictLookup m k2 := by
  induction m with
  | nil =>
      simp only [dictInsert, dictLookup]
  | cons q rest ih =>
      obtain ⟨k0, v0⟩ := q
      by_cases h : k0 = k
      · subst h
        simp only [dictInsert, if_pos rfl, dictLookup]
        by_cases h2 : k0 = k2 <;> simp [h2]
      · simp only [dictInsert, if_neg h, dictLookup, ih]
        by_cases h2 : k0 = k2
        · subst h2
          rw [if_pos rfl, if_neg (fun hh => h hh.symm), if_pos rfl]
        · rw [if_neg h2, if_neg h2]

/-- Helper: one-step unfolding of processChunk. -/
theorem processChunk_cons (upstream : Upstream) (id2 : String) (rest : List String)
    (m : List (String × List String)) :
    processChunk upstream (id2 :: rest) m =
      processChunk upstream rest
        (match upstream id2 with
         | none => m
         | some go => dictInsert m id2 (go.getD [])) := rfl

/-- Helper: a key of the map after one chunk was requested in that chunk
or present before. -/
theorem mem_processChunk (upstream : Upstream) (chunk : List String) :
    ∀ m p, p ∈ processChunk upstream chunk m → p.1 ∈ chunk ∨ p ∈ m := by
  induction chunk with
  | nil => intro m p hp; right; exact hp
  | cons id2 rest ih =>
      intro m p hp
      rw [processChunk_cons] at hp
      rcases ih _ p hp with h1 | h2
      · left; exact List.mem_cons_of_mem _ h1
      · cases hup : upstream id2 with
        | none => rw [hup] at h2; right; exact h2
        | some go =>
            rw [hup] at h2
            rcases mem_dictInsert _ _ _ _ h2 with he | hm
            · left; rw [he]; exact List.mem_cons_self _ _
            · right; exact hm

/-- Helper: a chunk does not touch the entry of an id whose entity is
null or missing. -/
theorem dictLookup_processChunk_none (upstream : Upstream) (chunk : List String)
    (id : String) (hup : upstream id = none) :
    ∀ m, dictLookup (processChunk upstream chunk m) id = dictLookup m id := by
  induction chunk with
  | nil => intro m; rfl
  | cons id2 rest ih =>
      intro m
      rw [processChunk_cons, ih]
      cases hup2 : upstream id2 with
      | none => rfl
      | some go =>
          rw [dictLookup_dictInsert]
          rw [if_neg (fun hh => by rw [hh, hup] at hup2; exact Option.noConfusion hup2)]

/-- Helper: a chunk containing an id with a non-null entity sets that id
to the entity genre list. -/
theorem dictLookup_processChunk_some (upstream : Upstream) (chunk : List String)
    (id : String) (go : Option (List String)) (hup : upstream id = some go) :
    ∀ m, dictLookup (processChunk upstream chunk m) id =
      if id ∈ chunk then some (go.getD []) else dictLookup m id := by
  induction chunk with
  | nil => intro m; simp [processChunk]
  | cons id2 rest ih =>
      intro m
      rw [processChunk_cons, ih]
      by_cases hmem : id ∈ rest
      · rw [if_pos hmem, if_pos (List.mem_cons_of_mem _ hmem)]
      · rw [if_neg hmem]
        by_cases heq : id = id2
        · subst heq
          rw [hup, dictLookup_dictInsert, if_pos rfl, if_pos (List.mem_cons_self _ _)]
        · rw [if_neg (fun hh => by rcases List.mem_cons.mp hh with h1 | h2 <;> [exact heq h1; exact hmem h2])]
          cases hup2 : upstream id2 with
          | none => rfl
          | some go2 =>
              rw [dictLookup_dictInsert, if_neg (fun hh => heq hh.symm)]

/-- Helper: one-step unfolding of the chunk fold. -/
theorem foldChunks_cons (upstream : Upstream) (c : List String) (cs : List (List String))
    (m : List (String × List String)) :
    foldChunks upstream (c :: cs) m = foldChunks upstream cs (processChunk upstream c m) := rfl

/-- Helper: a key of the final map was requested in some chunk or present
initially. -/
theorem mem_foldChunks (upstream : Upstream) (cs : List (List String)) :
    ∀ m p, p ∈ foldChunks upstream cs m → (∃ c ∈ cs, p.1 ∈ c) ∨ p ∈ m := by
  induction cs with
  | nil => intro m p hp; right; exact hp
  | cons c cs ih =>
      intro m p hp
      rw [foldChunks_cons] at hp
      rcases ih _ p hp with ⟨c2, hc2, hpc⟩ | hpm
      · left; exact ⟨c2, List.mem_cons_of_mem _ hc2, hpc⟩
      · rcases mem_processChunk upstream c _ p hpm with h1 | h2
        · left; exact ⟨c, List.mem_cons_self _ _, h1⟩
        · right; exact h2

/-- Helper: the chunk fold never creates an entry for an id whose entity
is null or missing. -/
theorem dictLookup_foldChunks_none (upstream : Upstream) (id : String)
    (hup : upstream id = none) (cs : List (List String)) :
    ∀ m, dictLookup (foldChunks upstream cs m) id = dictLookup m id := by
  induction cs with
  | nil => intro m; rfl
  | cons c cs ih =>
      intro m
      rw [foldChunks_cons, ih, dictLookup_processChunk_none upstream c id hup]

/-- Helper: the chunk fold sets an id with a non-null entity exactly when
some chunk requests it. -/
theorem dictLookup_foldChunks_some (upstream : Upstream) (id : String)
    (go : Option (List String)) (hup : upstream id = some go) (cs : List (List String)) :
    ∀ m, dictLookup (foldChunks upstream cs m) id =
      if ∃ c ∈ cs, id ∈ c then some (go.getD []) else dictLookup m id := by
  induction cs with
  | nil => intro m; simp [foldChunks]
  | cons c cs ih =>
      intro m
      rw [foldChunks_cons, ih]
      by_cases hmem : ∃ c2 ∈ cs, id ∈ c2
      · rw [if_pos hmem, if_pos ⟨hmem.choose, List.mem_cons_of_mem _ hmem.choose_spec.1, hmem.choose_spec.2⟩]
      · rw [if_neg hmem, dictLookup_processChunk_some upstream c id go hup]
        by_cases h2 : id ∈ c
        · rw [if_pos h2, if_pos ⟨c, List.mem_cons_self _ _, h2⟩]
        · rw [if_neg h2, if_neg ?_]
          rintro ⟨c2, hc2, hidc2⟩
          rcases List.mem_cons.mp hc2 with h3 | h3
          · subst h3; exact h2 hidc2
          · exact hmem ⟨c2, h3, hidc2⟩

/-- C6: the batch resolver issues no request and returns the empty map
for an empty id set, issues exactly ceil(N/50) requests otherwise over
chunks of at most 50 ids, and every key of the returned mapping is one
of the requested ids. -/
theorem batch_resolver_calls (upstream : Upstream) (ids : List String) :
    (ids = [] → get_artist_genres upstream ids = ([], 0)) ∧
    (get_artist_genres upstream ids).2 = (ids.length + 49) / 50 ∧
    (∀ p ∈ (get_artist_genres upstream ids).1, p.1 ∈ ids) ∧
    (∀ c ∈ chunked ids, c.length ≤ 50) := by
  refine ⟨fun h => by subst h; rfl, ?_, ?_, fun c hc => chunked_size ids c hc⟩
  · by_cases h : ids = []
    · subst h; rfl
    · simp only [get_artist_genres, if_neg h]
      exact chunked_length ids
  · intro p hp
    by_cases h : ids = []
    · subst h; simp [get_artist_genres] at hp
    · simp only [get_artist_genres, if_neg h] at hp
      rcases mem_foldChunks upstream _ [] p hp with ⟨c, hc, hpc⟩ | habs
      · exact (mem_chunked ids p.1).mp ⟨c, hc, hpc⟩
      · exact absurd habs (List.not_mem_nil p)

/-- Witness for C6: an empty id set makes no request; two ids need one
request; a key of a computed map is among the requested ids. -/
theorem batch_resolver_calls_witness :
    get_artist_genres (fun _ => none) [] = ([], 0) ∧
    (get_artist_genres (fun _ => none) ["a", "b"]).2 = ((["a", "b"] : List String).length + 49) / 50 ∧
    ("a" : String) ∈ (["a", "b"] : List String) :=
  ⟨(batch_resolver_calls (fun _ => none) []).1 rfl,
   (batch_resolver_calls (fun _ => none) ["a", "b"]).2.1,
   (batch_resolver_calls (fun _ => some (some ["x"])) ["a", "b"]).2.2.1 ("a", ["x"]) (by decide)⟩

/-- C7 counterexample to the claim as stated: the id a is requested, the
upstream returns a null entity for it, and the returned mapping has no
key a at all, instead of binding a to the empty list. -/
theorem null_entity_id_absent :
    ("a" : String) ∈ (["a"] : List String) ∧
    dictLookup (get_artist_genres (fun _ => none) ["a"]).1 "a" = none := by
  decide

/-- C7 (amended): a requested identifier whose entity is non-null is a
key of the returned mapping bound to the entity genre list (the empty
list when the entity carries no genres); a requested identifier whose
entity is null or missing is absent from the mapping. -/
theorem batch_resolver_lookup (upstream : Upstream) (ids : List String) (id : String)
    (hmem : id ∈ ids) :
    dictLookup (get_artist_genres upstream ids).1 id =
      match upstream id with
      | none => none
      | some go => some (go.getD []) := by
  have hne : ids ≠ [] := by
    intro h; subst h; exact absurd hmem (List.not_mem_nil id)
  simp only [get_artist_genres, if_neg hne]
  cases hup : upstream id with
  | none => rw [dictLookup_foldChunks_none upstream id hup]; rfl
  | some go =>
      rw [dictLookup_foldChunks_some upstream id go hup,
        if_pos ((mem_chunked ids id).mpr hmem)]

/-- Witness for C7 at a concrete upstream: a requested id with genres is
bound to them, and one whose entity lacks the genres field is bound to
the empty list. -/
theorem batch_resolver_lookup_witness :
    dictLookup (get_artist_genres (fun _ => some (some ["pop"])) ["a", "b"]).1 "a" = some ["pop"] ∧
    dictLookup (get_artist_genres (fun _ => some none) ["a", "b"]).1 "b" = some [] := by
  constructor
  · have h := batch_resolver_lookup (fun _ => some (some ["pop"])) ["a", "b"] "a" (by decide)
    simpa using h
  · have h := batch_resolver_lookup (fun _ => some none) ["a", "b"] "b" (by decide)
    simpa using h

/-- Helper: the fetch loop only reports an error that a consumed response
produced. -/
theorem getAllPagesGo_error_mem {α : Type} (limit : Nat) (rs : List (Except String (Page α))) :
    ∀ items ep e, getAllPagesGo limit rs items ep = Except.error e → Except.error e ∈ rs := by
  induction rs with
  | nil =>
      intro items ep e h
      cases ep with
      | none =>
          simp only [getAllPagesGo] at h
          exact Except.noConfusion h
      | some u =>
          simp only [getAllPagesGo] at h
          split at h <;> simp at h
  | cons r rest ih =>
      intro items ep e h
      cases ep with
      | none =>
          simp only [getAllPagesGo] at h
          exact Except.noConfusion h
      | some u =>
          simp only [getAllPagesGo] at h
          split at h
          · simp at h
          · cases r with
            | error e2 =>
                simp only [Except.error.injEq] at h
                subst h
                exact List.mem_cons_self _ _
            | ok p =>
                exact List.mem_cons_of_mem _ (ih _ _ _ h)

/-- Helper: when every consumed response is successful the fetch loop
returns a result. -/
theorem getAllPagesGo_ok_of_all_ok {α : Type} (limit : Nat)
    (rs : List (Except String (Page α))) :
    ∀ items ep, (∀ r ∈ rs, ∃ p, r = Except.ok p) →
      ∃ l, getAllPagesGo limit rs items ep = Except.ok l := by
  induction rs with
  | nil =>
      intro items ep _
      cases ep with
      | none => exact ⟨items, rfl⟩
      | some u =>
          simp only [getAllPagesGo]
          split
          · exact ⟨items, rfl⟩
          · exact ⟨items, rfl⟩
  | cons r rest ih =>
      intro items ep hall
      cases ep with
      | none => exact ⟨items, rfl⟩
      | some u =>
          obtain ⟨p, rfl⟩ := hall r (List.mem_cons_self r rest)
          simp only [getAllPagesGo]
          split
          · exact ⟨items, rfl⟩
          · exact ih _ _ (fun r2 h2 => hall r2 (List.mem_cons_of_mem _ h2))

/-- Helper: a successful fetch returns the accumulated items followed by
the concatenation, in order, of the items of a consumed all-successful
prefix of the responses. -/
theorem getAllPagesGo_ok_concat {α : Type} (limit : Nat)
    (rs : List (Except String (Page α))) :
    ∀ items ep l, getAllPagesGo limit rs items ep = Except.ok l →
      ∃ k, l = items ++ ((rs.take k).map okItems).flatten ∧
        ∀ r ∈ rs.take k, ∃ p, r = Except.ok p := by
  induction rs with
  | nil =>
      intro items ep l h
      refine ⟨0, ?_, by simp⟩
      cases ep with
      | none =>
          simp only [getAllPagesGo, Except.ok.injEq] at h
          simp [← h]
      | some u =>
          simp only [getAllPagesGo] at h
          split at h <;> simp_all
  | cons r rest ih =>
      intro items ep l h
      cases ep with
      | none =>
          simp only [getAllPagesGo, Except.ok.injEq] at h
          exact ⟨0, by simp [← h], by simp⟩
      | some u =>
          simp only [getAllPagesGo] at h
          split at h
          · simp only [Except.ok.injEq] at h
            exact ⟨0, by simp [← h], by simp⟩
          · cases r with
            | error e2 => simp at h
            | ok p =>
                obtain ⟨k, hl, hall⟩ := ih _ _ _ h
                refine ⟨k + 1, ?_, ?_⟩
                · rw [hl]
                  simp [okItems, List.take_succ_cons]
                · intro r2 h2
                  rw [List.take_succ_cons] at h2
                  rcases List.mem_cons.mp h2 with h3 | h3
                  · exact ⟨p, h3⟩
                  · exact hall r2 h3

/-- C8 (amended): the fetch with no explicit cap equals the fetch capped
at 1000 (the default of line 39), every page request asks for at most 50
items, a fetch reporting an error reports the error of one of the
responses and carries no partial items, an all-successful response chain
yields a successful result, and a successful result is exactly the
concatenation, in server order, of the items of the consumed
all-successful prefix of pages. -/
theorem paged_fetch_contract {α : Type} (url : String)
    (rs : List (Except String (Page α))) (limit : Nat) :
    get_all_pages_default url rs = get_all_pages url rs 1000 ∧
    (∀ cnt, pageLimit limit cnt ≤ 50) ∧
    (∀ e, get_all_pages url rs limit = Except.error e → Except.error e ∈ rs) ∧
    ((∀ r ∈ rs, ∃ p, r = Except.ok p) → ∃ l, get_all_pages url rs limit = Except.ok l) ∧
    (∀ l, get_all_pages url rs limit = Except.ok l →
      ∃ k, l = ((rs.take k).map okItems).flatten ∧ ∀ r ∈ rs.take k, ∃ p, r = Except.ok p) := by
  refine ⟨rfl, fun cnt => Nat.min_le_left _ _, ?_, ?_, ?_⟩
  · intro e h
    exact getAllPagesGo_error_mem limit rs _ _ e h
  · intro hall
    exact getAllPagesGo_ok_of_all_ok limit rs _ _ hall
  · intro l h
    obtain ⟨k, hl, hall⟩ := getAllPagesGo_ok_concat limit rs _ _ l h
    exact ⟨k, by simpa using hl, hall⟩

/-- Witness for C8 at concrete inputs: a single successful page yields a
result; a failing page propagates its error; a successful fetch is the
page concatenation. -/
theorem paged_fetch_contract_witness :
    (∃ l, get_all_pages "u" [Except.ok (⟨[1, 2], none⟩ : Page Nat)] 1000 = Except.ok l) ∧
    Except.error "HTTPError" ∈ ([Except.error "HTTPError"] : List (Except String (Page Nat))) ∧
    (∃ k, ([5] : List Nat) =
        (((([Except.ok ⟨[5], none⟩] : List (Except String (Page Nat))).take k).map okItems).flatten) ∧
      ∀ r ∈ ([Except.ok ⟨[5], none⟩] : List (Except String (Page Nat))).take k,
        ∃ p, r = Except.ok p) := by
  refine ⟨?_, ?_, ?_⟩
  · exact (paged_fetch_contract "u" _ 1000).2.2.2.1
      (by intro r hr; simp only [List.mem_singleton] at hr; subst hr; exact ⟨_, rfl⟩)
  · exact (paged_fetch_contract "u"
      ([Except.error "HTTPError"] : List (Except String (Page Nat))) 7).2.2.1 "HTTPError" rfl
  · exact (paged_fetch_contract "u" ([Except.ok ⟨[5], none⟩] : List (Except String (Page Nat)))
      1000).2.2.2.2 [5] rfl

set_option maxRecDepth 100000 in
/-- C8 counterexample to the claim as stated: calling the fetch without a
maximum item count is not unlimited; on a server chain holding 1050
items it stops at the 1000 default of line 39, while an explicit larger
cap retrieves all 1050. -/
theorem default_cap_is_1000 :
    get_all_pages_default "me/tracks?limit=50" bigServer = Except.ok (List.replicate 1000 0) ∧
    get_all_pages "me/tracks?limit=50" bigServer 1050 = Except.ok (List.replicate 1050 0) := by
  constructor <;> rfl

/-- Helper: the position in the season list determines the season. -/
theorem seasonIndex_inj (s1 s2 : Season) (h : seasonIndex s1 = seasonIndex s2) : s1 = s2 := by
  cases s1 <;> cases s2 <;> revert h <;> decide

/-- Helper: a sort-key comparison that is not an equality is strict. -/
theorem keyLe_ne_lt (a b : PhaseKey) (hle : keyLe a b) (hne : a ≠ b) : keyLt a b := by
  rcases a with ⟨s1, y1⟩
  rcases b with ⟨s2, y2⟩
  unfold keyLe at hle
  unfold keyLt
  simp only [get_sort_key] at *
  rcases hle with h | ⟨h1, h2⟩
  · left; exact h
  · right
    refine ⟨h1, ?_⟩
    rcases Nat.lt_or_ge (seasonIndex s1) (seasonIndex s2) with hlt | hge
    · exact hlt
    · have heq : s1 = s2 := seasonIndex_inj _ _ (Nat.le_antisymm h2 hge)
      exact absurd (by rw [heq, h1]) hne

/-- C9: with the bucket keys pairwise distinct (they are dict keys), the
processing order is sorted strictly ascending in the (year, season index)
order, is a permutation of the keys, and the final reversed output is
strictly descending (newest first). -/
theorem timeline_ordering (keys : List PhaseKey)
    (hnd : keys.Pairwise (fun a b => a ≠ b)) :
    (sortPhaseKeys keys).Perm keys ∧
    (sortPhaseKeys keys).Pairwise keyLt ∧
    (outputPhaseOrder keys).Pairwise (fun a b => keyLt b a) := by
  have hperm : (sortPhaseKeys keys).Perm keys := List.perm_insertionSort keyLe keys
  have hsorted : (sortPhaseKeys keys).Pairwise keyLe := List.sorted_insertionSort keyLe keys
  have hnd2 : (sortPhaseKeys keys).Pairwise (fun a b => a ≠ b) := hperm.nodup_iff.mpr hnd
  have hlt : (sortPhaseKeys keys).Pairwise keyLt :=
    (hsorted.and hnd2).imp (fun h => keyLe_ne_lt _ _ h.1 h.2)
  exact ⟨hperm, hlt, List.pairwise_reverse.mpr hlt⟩

/-- Witness for C9 at three concrete bucket keys. -/
theorem timeline_ordering_witness :
    (outputPhaseOrder [⟨Season.winter, 2022⟩, ⟨Season.summer, 2023⟩, ⟨Season.winter, 2023⟩]).Pairwise
      (fun a b => keyLt b a) :=
  (timeline_ordering _ (by decide)).2.2

/-- Helper for C10: dropping every credited artist after the first leaves
one extraction step unchanged. -/
theorem extractStep_keepFirstArtist (it : RawItem) (infos : List (String × TrackInfo))
    (ids : List String) :
    extractStep (keepFirstArtist it) infos ids = extractStep it infos ids := by
  rcases it with ⟨trOpt, added⟩
  cases trOpt with
  | none => rfl
  | some tr =>
      rcases tr with ⟨tid, tname, tartists, talbum, tpop⟩
      cases tartists with
      | none => rfl
      | some l =>
          cases l with
          | nil => rfl
          | cons a rest => rfl

/-- Helper for C10: the same invariance for the whole extraction loop. -/
theorem extractTracksGo_keepFirst (items : List RawItem) :
    ∀ infos ids, extractTracksGo (items.map keepFirstArtist) infos ids =
      extractTracksGo items infos ids := by
  induction items with
  | nil => intro infos ids; rfl
  | cons it rest ih =>
      intro infos ids
      simp only [List.map_cons, extractTracksGo, extractStep_keepFirstArtist]
      cases extractStep it infos ids with
      | error e => rfl
      | ok pair =>
          obtain ⟨infos2, ids2⟩ := pair
          exact ih infos2 ids2

/-- C10: the track extraction that seeds the whole analysis (the per
track info dict with its artist id and artist name, and the artist id
set sent to the batch resolver) is unchanged when every credited artist
after the first is removed from every raw item: only the first listed
artist of each track contributes to the analysis. -/
theorem first_artist_only (items : List RawItem) :
    extract_saved_tracks (items.map keepFirstArtist) = extract_saved_tracks items :=
  extractTracksGo_keepFirst items [] []

end Phaseify
